import Mathlib

/-!
Verification of the pandora serialization layer (serialization.go).

Identifiers (serializer and transformer names) are modelled as `List Char`,
so that Go's `strings.Join`/`strings.Split` on the one-character delimiter
`"|"` become `List.intercalate ['|']` and `List.splitOn '|'`.

Byte sinks and sources are modelled symbolically: a raw external resource
carries an identity, and each transformer wrap adds one symbolic layer
around an inner stream.  The structured codec libraries (msgpack, json) and
the compressor libraries (gzip, zstd) are external collaborators: binding a
real codec is modelled as a `bound` value recording which library was bound
and to which stream, and the outcome of a wrap step performed by an external
compressor constructor is supplied by an oracle parameter.
-/

set_option autoImplicit false

namespace Pandora

/-- Identifiers are plain strings in the source; modelled as character lists. -/
abbrev Ident := List Char

/-- `MSGPACK serializer = "msgpack"` (serialization.go line 16). -/
def MSGPACK : Ident := "msgpack".toList

/-- `JSON serializer = "json"` (line 17). -/
def JSON : Ident := "json".toList

/-- `GZIP transformer = "gzip"` (line 18). -/
def GZIP : Ident := "gzip".toList

/-- `ZSTD transformer = "zstd"` (line 19). -/
def ZSTD : Ident := "zstd".toList

/-- `sep = "|"` (line 25); a one-character delimiter. -/
def sep : Char := '|'

/-- Errors visible to this layer: the three declared `errors.Message`
constants (lines 21-23) plus opaque errors returned by the external
compressor constructors during chain construction. -/
inductive GoError where
  | errInvalidFormat
  | errUnknownSerializer
  | errUnknownTransformer
  | libErr (msg : Ident)
  deriving DecidableEq, Repr

/-- `pack` (lines 52-61): the serializer id followed by each transformer id,
joined with the delimiter, in call order. -/
def pack (s : Ident) (tt : List Ident) : Ident :=
  List.intercalate [sep] (s :: tt)

/-- `unpack` (lines 83-97): split the format on the delimiter; the first
token overwrites the receiver serializer id, the remaining tokens are the
transformer ids.  The Go guard `len(data) == 0` keeps the receiver and
returns no transformers (it is dead code: `strings.Split` with a non-empty
separator never returns an empty slice, and neither does `List.splitOn`). -/
def unpack (s : Ident) (format : Ident) : Ident × List Ident :=
  match format.splitOn sep with
  | [] => (s, [])
  | d0 :: rest => (d0, rest)

/-- A byte sink or source: a raw external resource (with an identity), or a
transformer wrapper opened around an inner stream. -/
inductive ByteStream where
  | raw (n : Nat)
  | wrapped (t : Ident) (inner : ByteStream)
  deriving DecidableEq, Repr

/-- The outcome of running a construction chain on a stream: the resulting
(possibly wrapped) stream, the streams closed best-effort while unwinding a
failed construction, and the first error encountered, if any. -/
structure ChainResult where
  stream : ByteStream
  closed : List ByteStream
  err : Option GoError
  deriving DecidableEq, Repr

/-- Modelled from the spec: `go.octolab.org/io`'s `WriteCloserChain` and
`ReadCloserChain` function types are not part of this repository's sources.
Per the spec they take a stream and return the wrapped stream together with
a possible error; the model additionally records which streams the
combinator closed while unwinding a failed construction (spec section 4.4:
already-opened wrappers must be closed best-effort). -/
def CloserChain := ByteStream → ChainResult

/-- Modelled from the spec: the external `Chain` combinator of
`go.octolab.org/io`.  Spec section 4.4: each successive transformer wraps
the previously wrapped stream, so the link (the wrapper being appended)
applies to the stream first and the already-built head chain wraps its
result; the first error short-circuits the remaining construction, and when
the head fails after the link succeeded, the link's freshly opened wrapper
is closed best-effort. -/
def CloserChain.Chain (head link : CloserChain) : CloserChain := fun output =>
  let r := link output
  match r.err with
  | some _ => r
  | none =>
    let r2 := head r.stream
    match r2.err with
    | some _ => { r2 with closed := r2.closed ++ [r.stream] }
    | none => r2

/-- The identity chain that starts each fold (lines 40 and 71): it returns
the stream unchanged with a nil error. -/
def idChain : CloserChain := fun output => ⟨output, [], none⟩

/-- A wrap step in the shape every registered transformer entry shares
(lines 151-168): the external constructor always returns the wrapper opened
around the stream, together with that constructor's error as supplied by an
oracle `errF`; a wrap step closes nothing by itself. -/
def wrapStep (errF : Ident → ByteStream → Option GoError) (t : Ident) : CloserChain :=
  fun s => ⟨.wrapped t s, [], errF t s⟩

/-- A registered transformer: a pair of stream-wrapping functions, `Input`
for the read path and `Output` for the write path (lines 147-150). -/
structure TransEntry where
  Input : CloserChain
  Output : CloserChain

/-- The transformer registry (lines 147-169), as a lookup function.  The
external compressor constructors' outcomes are oracle parameters: `gzw s`
is the error, if any, of `gzip.NewWriterLevel` at sink `s` (the source
passes the fixed valid level `gzip.BestCompression`), and `gzr s` the error
of `gzip.NewReader` at source `s` (it reads the stream header and may
fail).  Both zstd constructors return a nil error in the source itself
(lines 163 and 166). -/
def transformers (gzw gzr : ByteStream → Option GoError) (t : Ident) : Option TransEntry :=
  if t = GZIP then
    some { Input := wrapStep (fun _ s => gzr s) GZIP,
           Output := wrapStep (fun _ s => gzw s) GZIP }
  else if t = ZSTD then
    some { Input := wrapStep (fun _ _ => none) ZSTD,
           Output := wrapStep (fun _ _ => none) ZSTD }
  else none

/-- Which external structured codec library a real encoder or decoder was
bound to (lines 122, 128, 136, 142). -/
inductive SerKind where
  | msgpackCodec
  | jsonCodec
  deriving DecidableEq, Repr

/-- An `encoding.EncodeCloser` as produced by this layer: either a
`nopSerializer` carrying a fixed error (every construction site passes a
constant closure, lines 37, 44, 120, 126, 134, 140, so the model stores the
returned error), or a real structured encoder bound to a stream. -/
inductive EncodeCloser where
  | nop (e : GoError)
  | bound (k : SerKind) (s : ByteStream)
  deriving DecidableEq, Repr

/-- An `encoding.DecodeCloser` as produced by this layer. -/
inductive DecodeCloser where
  | nop (e : GoError)
  | bound (k : SerKind) (s : ByteStream)
  deriving DecidableEq, Repr

/-- The result of invoking a codec method: it returns a nil error, fails
with a fixed error, or defers to the externally bound library, whose
outcome is outside this model. -/
inductive CallResult where
  | ok
  | fails (e : GoError)
  | external (k : SerKind) (s : ByteStream)
  deriving DecidableEq, Repr

/-- `nopSerializer.Encode` (line 108) ignores its argument and returns the
recorded error; a bound encoder defers to the external library. -/
def EncodeCloser.Encode {α : Type} : EncodeCloser → α → CallResult
  | .nop e, _ => .fails e
  | .bound k s, _ => .external k s

/-- `nopSerializer.Close` (line 109) returns nil; a bound encoder's close
defers to the external library. -/
def EncodeCloser.Close : EncodeCloser → CallResult
  | .nop _ => .ok
  | .bound k s => .external k s

/-- `nopSerializer.Decode` (line 107) ignores its argument and returns the
recorded error; a bound decoder defers to the external library. -/
def DecodeCloser.Decode {α : Type} : DecodeCloser → α → CallResult
  | .nop e, _ => .fails e
  | .bound k s, _ => .external k s

/-- `nopSerializer.Close` (line 109), seen through a `DecodeCloser`. -/
def DecodeCloser.Close : DecodeCloser → CallResult
  | .nop _ => .ok
  | .bound k s => .external k s

/-- A registered serializer: a pair of binder functions taking the wrapped
stream and the chain-construction error (lines 113-116). -/
structure SerEntry where
  Input : ByteStream → Option GoError → DecodeCloser
  Output : ByteStream → Option GoError → EncodeCloser

/-- The msgpack registry entry (lines 117-130): a non-nil chain error makes
the binder return a `nopSerializer` carrying that error; otherwise the
external msgpack codec is bound to the stream. -/
def msgpackEntry : SerEntry where
  Input := fun input err =>
    match err with
    | some e => .nop e
    | none => .bound .msgpackCodec input
  Output := fun output err =>
    match err with
    | some e => .nop e
    | none => .bound .msgpackCodec output

/-- The json registry entry (lines 131-144), of the same shape. -/
def jsonEntry : SerEntry where
  Input := fun input err =>
    match err with
    | some e => .nop e
    | none => .bound .jsonCodec input
  Output := fun output err =>
    match err with
    | some e => .nop e
    | none => .bound .jsonCodec output

/-- The serializer registry (lines 113-145), as a lookup function. -/
def serializers (s : Ident) : Option SerEntry :=
  if s = MSGPACK then some msgpackEntry
  else if s = JSON then some jsonEntry
  else none

/-- The transformer loop shared by `Encoder` (lines 41-47) and `Decoder`
(lines 72-78): look the ids up in order, returning `none` at the first
unknown one (where the Go code early-returns the ErrUnknownTransformer
codec), otherwise extend the chain with the looked-up wrapper.  `pick`
selects the write (`Output`) or read (`Input`) side of the entry. -/
def buildChain (reg : Ident → Option TransEntry) (pick : TransEntry → CloserChain) :
    List Ident → CloserChain → Option CloserChain
  | [], transform => some transform
  | t :: ts, transform =>
    match reg t with
    | none => none
    | some entry => buildChain reg pick ts (CloserChain.Chain transform (pick entry))

/-- `Encoder` (lines 32-50): compute the format tag, look the receiver up in
the serializer registry, fold the write chain over the transformer ids, run
it on the sink, and hand the wrapped sink and the chain error to the
serializer's binder.  The transformer registry is a parameter so that the
oracle-dependent `transformers` lookup can be instantiated. -/
def Encoder (reg : Ident → Option TransEntry) (s : Ident) (writer : ByteStream)
    (tt : List Ident) : EncodeCloser × Ident :=
  let format := pack s tt
  match serializers s with
  | none => (.nop .errUnknownSerializer, format)
  | some serialize =>
    match buildChain reg (fun entry => entry.Output) tt idChain with
    | none => (.nop .errUnknownTransformer, format)
    | some transform =>
      let r := transform writer
      (serialize.Output r.stream r.err, format)

/-- `Decoder` (lines 63-81): unpack the format tag (overwriting the receiver
with its first token), look that token up in the serializer registry, fold
the read chain over the unpacked transformer ids, run it on the source, and
hand the wrapped source and the chain error to the serializer's binder. -/
def Decoder (reg : Ident → Option TransEntry) (s : Ident) (reader : ByteStream)
    (format : Ident) : DecodeCloser :=
  match unpack s format with
  | (s2, tt) =>
    match serializers s2 with
    | none => .nop .errUnknownSerializer
    | some serialize =>
      match buildChain reg (fun entry => entry.Input) tt idChain with
      | none => .nop .errUnknownTransformer
      | some transform =>
        let r := transform reader
        serialize.Input r.stream r.err

/-- The stream obtained by wrapping `s` with the transformers of `tt` in
list order: the first-listed transformer is outermost (sees the structured
encoder's bytes first) and the last-listed one is innermost, closest to the
raw resource. -/
def nest (tt : List Ident) (s : ByteStream) : ByteStream :=
  match tt with
  | [] => s
  | t :: ts => .wrapped t (nest ts s)

/-- Wrapping in execution order: the head of the list wraps first and ends
up innermost. -/
def nestRev (tt : List Ident) (s : ByteStream) : ByteStream :=
  match tt with
  | [] => s
  | t :: ts => nestRev ts (.wrapped t s)

/-- The wrappers opened, in execution order, while wrapping `s` with the
transformers of `tt`. -/
def opened (tt : List Ident) (s : ByteStream) : List ByteStream :=
  match tt with
  | [] => []
  | t :: ts => .wrapped t s :: opened ts (.wrapped t s)

/-- Reference evaluator for a fully built chain, recursing in execution
order (the reverse of the supplied list order): wrap with the head, stop at
the first error, and close the wrapper opened at this step best-effort if
the rest of the construction fails above it. -/
def runRev (errF : Ident → ByteStream → Option GoError) :
    List Ident → ByteStream → ChainResult
  | [], s => ⟨s, [], none⟩
  | t :: ts, s =>
    match errF t s with
    | some e => ⟨.wrapped t s, [], some e⟩
    | none =>
      match (runRev errF ts (.wrapped t s)).err with
      | some _ => { runRev errF ts (.wrapped t s) with
                    closed := (runRev errF ts (.wrapped t s)).closed ++ [.wrapped t s] }
      | none => runRev errF ts (.wrapped t s)

/-- The write-path wrap errors of the registered transformers: gzip defers
to the external constructor's oracle, zstd never fails (lines 156-158 and
165-167). -/
def outErr (gzw : ByteStream → Option GoError) (t : Ident) (s : ByteStream) :
    Option GoError :=
  if t = GZIP then gzw s else none

end Pandora

namespace Pandora

theorem nestRev_append_singleton (t : Ident) :
    ∀ (l : List Ident) (s : ByteStream),
      nestRev (l ++ [t]) s = .wrapped t (nestRev l s) := by
  intro l
  induction l with
  | nil => intro s; rfl
  | cons a l ih => intro s; simpa [nestRev] using ih (.wrapped a s)

theorem nest_eq_nestRev : ∀ (tt : List Ident) (s : ByteStream),
    nest tt s = nestRev tt.reverse s := by
  intro tt
  induction tt with
  | nil => intro s; rfl
  | cons t ts ih =>
    intro s
    simp only [nest, List.reverse_cons, nestRev_append_singleton, ih]

theorem buildChain_of_regular (reg : Ident → Option TransEntry)
    (pick : TransEntry → CloserChain) (errF : Ident → ByteStream → Option GoError) :
    ∀ (tt : List Ident) (acc : CloserChain),
      (∀ t ∈ tt, (reg t).map pick = some (wrapStep errF t)) →
      buildChain reg pick tt acc =
        some (tt.foldl (fun a t => CloserChain.Chain a (wrapStep errF t)) acc) := by
  intro tt
  induction tt with
  | nil => intro acc _; rfl
  | cons t ts ih =>
    intro acc h
    have ht := h t (List.mem_cons_self t ts)
    rcases Option.map_eq_some'.mp ht with ⟨entry, hentry, hpick⟩
    simp only [buildChain, hentry, List.foldl_cons, hpick]
    exact ih _ fun t2 h2 => h t2 (List.mem_cons_of_mem t h2)

theorem Chain_wrapStep_apply (head : CloserChain)
    (errF : Ident → ByteStream → Option GoError) (t : Ident) (s : ByteStream) :
    CloserChain.Chain head (wrapStep errF t) s =
      match errF t s with
      | some e => ⟨.wrapped t s, [], some e⟩
      | none =>
        match (head (.wrapped t s)).err with
        | some _ => { head (.wrapped t s) with
                      closed := (head (.wrapped t s)).closed ++ [.wrapped t s] }
        | none => head (.wrapped t s) := by
  show (let r := wrapStep errF t s
        match r.err with
        | some _ => r
        | none =>
          let r2 := head r.stream
          match r2.err with
          | some _ => { r2 with closed := r2.closed ++ [r.stream] }
          | none => r2) = _
  cases hE : errF t s <;> simp [wrapStep, hE]

theorem foldl_chain_run (errF : Ident → ByteStream → Option GoError) :
    ∀ (tt : List Ident) (s : ByteStream),
      (tt.foldl (fun a t => CloserChain.Chain a (wrapStep errF t)) idChain) s
        = runRev errF tt.reverse s := by
  intro tt
  induction tt using List.reverseRecOn with
  | nil => intro s; rfl
  | append_singleton l t ih =>
    intro s
    rw [List.foldl_append, List.foldl_cons, List.foldl_nil, List.reverse_append]
    simp only [List.reverse_cons, List.reverse_nil, List.nil_append, List.singleton_append]
    rw [Chain_wrapStep_apply]
    cases hE : errF t s with
    | some e => simp only [runRev, hE]
    | none =>
      rw [ih]
      simp only [runRev, hE]

theorem runRev_success (errF : Ident → ByteStream → Option GoError) :
    ∀ (tt : List Ident) (s : ByteStream),
      (∀ t ∈ tt, ∀ s2, errF t s2 = none) →
      runRev errF tt s = ⟨nestRev tt s, [], none⟩ := by
  intro tt
  induction tt with
  | nil => intro s _; rfl
  | cons t ts ih =>
    intro s h
    have ht : errF t s = none := h t (List.mem_cons_self t ts) s
    have hrec := ih (.wrapped t s) fun t2 h2 => h t2 (List.mem_cons_of_mem t h2)
    simp [runRev, ht, hrec, nestRev]

theorem runRev_failure (errF : Ident → ByteStream → Option GoError)
    (tf : Ident) (rest : List Ident) (e : GoError) :
    ∀ (pre : List Ident) (s : ByteStream),
      (∀ t ∈ pre, ∀ s2, errF t s2 = none) →
      errF tf (nestRev pre s) = some e →
      runRev errF (pre ++ tf :: rest) s =
        ⟨.wrapped tf (nestRev pre s), (opened pre s).reverse, some e⟩ := by
  intro pre
  induction pre with
  | nil =>
    intro s _ hfail
    simp only [nestRev] at hfail
    simp [runRev, hfail, nestRev, opened]
  | cons a pre' ih =>
    intro s h hfail
    have ha : errF a s = none := h a (List.mem_cons_self a pre') s
    have hrec := ih (.wrapped a s)
      (fun t2 h2 => h t2 (List.mem_cons_of_mem a h2))
      (by simpa [nestRev] using hfail)
    simp [runRev, ha, hrec, nestRev, opened]

theorem buildChain_eq_none (reg : Ident → Option TransEntry)
    (pick : TransEntry → CloserChain) :
    ∀ (tt : List Ident) (acc : CloserChain) (t0 : Ident),
      t0 ∈ tt → reg t0 = none → buildChain reg pick tt acc = none := by
  intro tt
  induction tt with
  | nil => intro acc t0 h; exact absurd h (List.not_mem_nil t0)
  | cons t ts ih =>
    intro acc t0 hmem hnone
    rcases List.mem_cons.mp hmem with h | h
    · subst h; simp [buildChain, hnone]
    · cases hr : reg t with
      | none => simp [buildChain, hr]
      | some entry => simp only [buildChain, hr]; exact ih _ t0 h hnone

theorem transformers_output_shape (gzw gzr : ByteStream → Option GoError)
    (t : Ident) (h : t = GZIP ∨ t = ZSTD) :
    (transformers gzw gzr t).map (fun entry => entry.Output)
      = some (wrapStep (outErr gzw) t) := by
  rcases h with h | h <;> subst h
  · simp only [transformers, if_pos rfl, Option.map_some']
    unfold wrapStep outErr
    simp
  · have hne : ZSTD ≠ GZIP := by decide
    simp only [transformers, if_neg hne, if_pos rfl, Option.map_some']
    unfold wrapStep outErr
    simp [hne]

theorem serializers_cases (s : Ident) (entry : SerEntry)
    (hser : serializers s = some entry) :
    entry = msgpackEntry ∨ entry = jsonEntry := by
  unfold serializers at hser
  split at hser
  · exact Or.inl (Option.some.inj hser).symm
  · split at hser
    · exact Or.inr (Option.some.inj hser).symm
    · exact absurd hser (by simp)

/-- C1: pack then unpack recovers the serializer id and the transformer list
exactly, whatever the receiver was, provided no identifier contains the
delimiter character. -/
theorem unpack_pack (s0 s : Ident) (tt : List Ident)
    (hs : sep ∉ s) (htt : ∀ t ∈ tt, sep ∉ t) :
    unpack s0 (pack s tt) = (s, tt) := by
  have hx : ∀ l ∈ s :: tt, sep ∉ l := by
    intro l hl
    rcases List.mem_cons.mp hl with h | h
    · simpa [h] using hs
    · exact htt l h
  have hsplit : (List.intercalate [sep] (s :: tt)).splitOn sep = s :: tt :=
    List.splitOn_intercalate (s :: tt) sep hx (List.cons_ne_nil s tt)
  simp [unpack, pack, hsplit]

/-- Witness for C1 at a concrete input. -/
theorem unpack_pack_witness :
    (sep ∉ MSGPACK) ∧ (∀ t ∈ [GZIP, ZSTD], sep ∉ t) ∧
      unpack [] (pack MSGPACK [GZIP, ZSTD]) = (MSGPACK, [GZIP, ZSTD]) :=
  ⟨by decide, by decide, unpack_pack [] MSGPACK [GZIP, ZSTD] (by decide) (by decide)⟩

/-- C2: with a known serializer, known transformer ids, and successful
compressor initialization, the write chain folds over the id list starting
from the raw sink: the structured encoder is bound to the fully wrapped
sink in which the first-listed transformer is outermost and the last-listed
one is innermost, closest to the raw sink, so written data passes through
the transformers in the order the ids were supplied. -/
theorem Encoder_chain_order (gzw gzr : ByteStream → Option GoError)
    (s : Ident) (entry : SerEntry) (writer : ByteStream) (tt : List Ident)
    (hser : serializers s = some entry)
    (htt : ∀ t ∈ tt, t = GZIP ∨ t = ZSTD)
    (hgzw : ∀ st, gzw st = none) :
    Encoder (transformers gzw gzr) s writer tt
      = (entry.Output (nest tt writer) none, pack s tt) ∧
    ∃ k, entry.Output (nest tt writer) none = .bound k (nest tt writer) := by
  have hshape : ∀ t ∈ tt, (transformers gzw gzr t).map (fun en => en.Output)
      = some (wrapStep (outErr gzw) t) :=
    fun t ht => transformers_output_shape gzw gzr t (htt t ht)
  have hbuild := buildChain_of_regular (transformers gzw gzr) (fun en => en.Output)
      (outErr gzw) tt idChain hshape
  have hsucc : ∀ t ∈ tt.reverse, ∀ s2, outErr gzw t s2 = none := by
    intro t _ s2
    unfold outErr
    split <;> simp [hgzw]
  have hrun : (tt.foldl (fun a t => CloserChain.Chain a (wrapStep (outErr gzw) t))
      idChain) writer = ⟨nest tt writer, [], none⟩ := by
    rw [foldl_chain_run, runRev_success (outErr gzw) tt.reverse writer hsucc,
      ← nest_eq_nestRev]
  refine ⟨by simp only [Encoder, hser, hbuild, hrun], ?_⟩
  rcases serializers_cases s entry hser with h | h <;> subst h
  · exact ⟨.msgpackCodec, rfl⟩
  · exact ⟨.jsonCodec, rfl⟩

/-- Witness for C2 at a concrete input. -/
theorem Encoder_chain_order_witness :
    serializers MSGPACK = some msgpackEntry ∧
    (Encoder (transformers (fun _ => none) (fun _ => none)) MSGPACK (.raw 0) [GZIP, ZSTD]
        = (msgpackEntry.Output (nest [GZIP, ZSTD] (.raw 0)) none, pack MSGPACK [GZIP, ZSTD]) ∧
      ∃ k, msgpackEntry.Output (nest [GZIP, ZSTD] (.raw 0)) none
          = .bound k (nest [GZIP, ZSTD] (.raw 0))) :=
  ⟨rfl, Encoder_chain_order (fun _ => none) (fun _ => none) MSGPACK msgpackEntry (.raw 0)
      [GZIP, ZSTD] rfl (by decide) (fun _ => rfl)⟩

/-- C3: for every known serializer, when the chain construction handed to
the binder carries a non-nil error, the binder returns a NullCodec carrying
exactly that error, and encode (respectively decode) calls on it fail with
it. -/
theorem binder_propagates_chain_error (s : Ident) (entry : SerEntry)
    (wc : ByteStream) (e : GoError) (hser : serializers s = some entry) :
    entry.Output wc (some e) = .nop e ∧
    (∀ (α : Type) (v : α), (entry.Output wc (some e)).Encode v = .fails e) ∧
    entry.Input wc (some e) = .nop e ∧
    (∀ (α : Type) (v : α), (entry.Input wc (some e)).Decode v = .fails e) := by
  rcases serializers_cases s entry hser with h | h <;> subst h <;>
    exact ⟨rfl, fun _ _ => rfl, rfl, fun _ _ => rfl⟩

/-- Witness for C3 at a concrete input. -/
theorem binder_propagates_chain_error_witness :
    serializers MSGPACK = some msgpackEntry ∧
    msgpackEntry.Output (.raw 0) (some (.libErr "boom".toList))
      = .nop (.libErr "boom".toList) ∧
    (msgpackEntry.Output (.raw 0) (some (.libErr "boom".toList))).Encode (0 : Nat)
      = .fails (.libErr "boom".toList) :=
  ⟨rfl,
   (binder_propagates_chain_error MSGPACK msgpackEntry (.raw 0)
      (.libErr "boom".toList) rfl).1,
   (binder_propagates_chain_error MSGPACK msgpackEntry (.raw 0)
      (.libErr "boom".toList) rfl).2.1 Nat 0⟩

/-- C4: when the first token of the tag names an unregistered serializer,
Decoder returns the (non-null) NullCodec and every decode call on it fails
with ErrUnknownSerializer. -/
theorem Decoder_unknown_serializer (reg : Ident → Option TransEntry)
    (s0 : Ident) (reader : ByteStream) (format : Ident)
    (h : serializers (unpack s0 format).1 = none) :
    Decoder reg s0 reader format = .nop .errUnknownSerializer ∧
    ∀ (α : Type) (v : α),
      (Decoder reg s0 reader format).Decode v = .fails .errUnknownSerializer := by
  have hd : Decoder reg s0 reader format = .nop .errUnknownSerializer := by
    rcases hu : unpack s0 format with ⟨s2, tt⟩
    rw [hu] at h
    simp only [Decoder, hu, h]
  exact ⟨hd, fun _ _ => by rw [hd]; rfl⟩

/-- Witness for C4 at the spec's example tag. -/
theorem Decoder_unknown_serializer_witness :
    serializers (unpack MSGPACK "bogus|gzip".toList).1 = none ∧
    Decoder (transformers (fun _ => none) (fun _ => none)) MSGPACK (.raw 0)
        "bogus|gzip".toList = .nop .errUnknownSerializer ∧
    (Decoder (transformers (fun _ => none) (fun _ => none)) MSGPACK (.raw 0)
        "bogus|gzip".toList).Decode (0 : Nat) = .fails .errUnknownSerializer :=
  ⟨rfl,
   (Decoder_unknown_serializer (transformers (fun _ => none) (fun _ => none)) MSGPACK
      (.raw 0) "bogus|gzip".toList rfl).1,
   (Decoder_unknown_serializer (transformers (fun _ => none) (fun _ => none)) MSGPACK
      (.raw 0) "bogus|gzip".toList rfl).2 Nat 0⟩

/-- C5: with a known serializer, a transformer list containing an
unregistered id makes Encoder return the (non-null) NullCodec, and every
encode call on it fails with ErrUnknownTransformer. -/
theorem Encoder_unknown_transformer (gzw gzr : ByteStream → Option GoError)
    (s : Ident) (entry : SerEntry) (writer : ByteStream) (tt : List Ident) (t0 : Ident)
    (hser : serializers s = some entry)
    (hmem : t0 ∈ tt) (hunk : transformers gzw gzr t0 = none) :
    Encoder (transformers gzw gzr) s writer tt
      = (.nop .errUnknownTransformer, pack s tt) ∧
    ∀ (α : Type) (v : α),
      (Encoder (transformers gzw gzr) s writer tt).1.Encode v
        = .fails .errUnknownTransformer := by
  have hb := buildChain_eq_none (transformers gzw gzr) (fun en => en.Output)
      tt idChain t0 hmem hunk
  have hE : Encoder (transformers gzw gzr) s writer tt
      = (.nop .errUnknownTransformer, pack s tt) := by
    simp only [Encoder, hser, hb]
  exact ⟨hE, fun _ _ => by rw [hE]; rfl⟩

/-- Witness for C5 at the spec's example id. -/
theorem Encoder_unknown_transformer_witness :
    serializers MSGPACK = some msgpackEntry ∧
    ("bogus".toList ∈ ["bogus".toList]) ∧
    transformers (fun _ => none) (fun _ => none) "bogus".toList = none ∧
    Encoder (transformers (fun _ => none) (fun _ => none)) MSGPACK (.raw 0)
        ["bogus".toList] = (.nop .errUnknownTransformer, pack MSGPACK ["bogus".toList]) ∧
    (Encoder (transformers (fun _ => none) (fun _ => none)) MSGPACK (.raw 0)
        ["bogus".toList]).1.Encode (0 : Nat) = .fails .errUnknownTransformer :=
  ⟨rfl, by decide, rfl,
   (Encoder_unknown_transformer (fun _ => none) (fun _ => none) MSGPACK msgpackEntry
      (.raw 0) ["bogus".toList] "bogus".toList rfl (by decide) rfl).1,
   (Encoder_unknown_transformer (fun _ => none) (fun _ => none) MSGPACK msgpackEntry
      (.raw 0) ["bogus".toList] "bogus".toList rfl (by decide) rfl).2 Nat 0⟩

/-- C6 counterexample: on the empty tag the resulting codec's decode call
fails with ErrUnknownSerializer, not with ErrInvalidFormat as claimed
(ErrInvalidFormat is declared in the source but never raised anywhere). -/
theorem empty_tag_error_counterexample :
    (Decoder (transformers (fun _ => none) (fun _ => none)) MSGPACK (.raw 0) []).Decode
        (0 : Nat) = .fails .errUnknownSerializer ∧
    (Decoder (transformers (fun _ => none) (fun _ => none)) MSGPACK (.raw 0) []).Decode
        (0 : Nat) ≠ .fails .errInvalidFormat :=
  ⟨rfl, by decide⟩

/-- C6 (amended): unpack of the empty tag yields the empty serializer id
and no transformers, and the Decoder built from the empty tag returns a
NullCodec whose decode calls fail with ErrUnknownSerializer, the error the
registry lookup produces for the empty id. -/
theorem empty_tag_unknown_serializer (reg : Ident → Option TransEntry)
    (s0 : Ident) (reader : ByteStream) :
    unpack s0 [] = ([], []) ∧
    Decoder reg s0 reader [] = .nop .errUnknownSerializer ∧
    ∀ (α : Type) (v : α),
      (Decoder reg s0 reader []).Decode v = .fails .errUnknownSerializer :=
  ⟨rfl, rfl, fun _ _ => rfl⟩

/-- C7: when a wrap step fails during write-chain construction, the chain
stops at the failing step (the resulting stream holds only the wrappers
opened up to and including it, whatever follows in the list), every wrapper
opened before the failure is closed best-effort, and the first error
encountered is the one the serializer's binder records in the returned
NullCodec, whose encode calls fail with exactly it.  `pre`, `tf` and `rest`
list the transformers in execution order (the reverse of the supplied
order): those wrapped successfully, the failing one, and the rest. -/
theorem Encoder_wrap_failure (reg : Ident → Option TransEntry)
    (errF : Ident → ByteStream → Option GoError)
    (s : Ident) (entry : SerEntry) (writer : ByteStream)
    (pre : List Ident) (tf : Ident) (rest : List Ident) (e : GoError)
    (hser : serializers s = some entry)
    (hreg : ∀ t ∈ (pre ++ tf :: rest).reverse,
      (reg t).map (fun en => en.Output) = some (wrapStep errF t))
    (hpre : ∀ t ∈ pre, ∀ s2, errF t s2 = none)
    (hfail : errF tf (nestRev pre writer) = some e) :
    ∃ transform,
      buildChain reg (fun en => en.Output) ((pre ++ tf :: rest).reverse) idChain
          = some transform ∧
      transform writer
        = ⟨.wrapped tf (nestRev pre writer), (opened pre writer).reverse, some e⟩ ∧
      (∀ w ∈ opened pre writer, w ∈ (transform writer).closed) ∧
      Encoder reg s writer ((pre ++ tf :: rest).reverse)
        = (.nop e, pack s ((pre ++ tf :: rest).reverse)) ∧
      ∀ (α : Type) (v : α),
        (Encoder reg s writer ((pre ++ tf :: rest).reverse)).1.Encode v = .fails e := by
  have hbuild := buildChain_of_regular reg (fun en => en.Output) errF
      ((pre ++ tf :: rest).reverse) idChain hreg
  have hrun : (((pre ++ tf :: rest).reverse).foldl
      (fun a t => CloserChain.Chain a (wrapStep errF t)) idChain) writer
      = ⟨.wrapped tf (nestRev pre writer), (opened pre writer).reverse, some e⟩ := by
    rw [foldl_chain_run, List.reverse_reverse]
    exact runRev_failure errF tf rest e pre writer hpre hfail
  refine ⟨_, hbuild, hrun, ?_, ?_, ?_⟩
  · intro w hw
    rw [hrun]
    exact List.mem_reverse.mpr hw
  · have hout : entry.Output (.wrapped tf (nestRev pre writer)) (some e) = .nop e := by
      rcases serializers_cases s entry hser with h | h <;> subst h <;> rfl
    simp only [Encoder, hser, hbuild, hrun, hout]
  · intro α v
    have hout : entry.Output (.wrapped tf (nestRev pre writer)) (some e) = .nop e := by
      rcases serializers_cases s entry hser with h | h <;> subst h <;> rfl
    simp only [Encoder, hser, hbuild, hrun, hout]
    rfl

/-- Witness for C7: gzip's writer constructor fails over a zstd-wrapped
sink; the zstd wrapper already opened is closed and the error reaches the
encode call. -/
theorem Encoder_wrap_failure_witness :
    serializers MSGPACK = some msgpackEntry ∧
    (∀ t ∈ (([ZSTD] ++ GZIP :: []).reverse),
      ((transformers (fun _ => some (.libErr "boom".toList)) (fun _ => none) t).map
          (fun en => en.Output))
        = some (wrapStep
            (fun t2 _ => if t2 = GZIP then some (.libErr "boom".toList) else none) t)) ∧
    (∃ transform,
      buildChain (transformers (fun _ => some (.libErr "boom".toList)) (fun _ => none))
          (fun en => en.Output) (([ZSTD] ++ GZIP :: []).reverse) idChain
          = some transform ∧
      transform (.raw 0)
        = ⟨.wrapped GZIP (nestRev [ZSTD] (.raw 0)),
           (opened [ZSTD] (.raw 0)).reverse, some (.libErr "boom".toList)⟩ ∧
      (∀ w ∈ opened [ZSTD] (.raw 0), w ∈ (transform (.raw 0)).closed) ∧
      Encoder (transformers (fun _ => some (.libErr "boom".toList)) (fun _ => none))
          MSGPACK (.raw 0) (([ZSTD] ++ GZIP :: []).reverse)
        = (.nop (.libErr "boom".toList), pack MSGPACK (([ZSTD] ++ GZIP :: []).reverse)) ∧
      ∀ (α : Type) (v : α),
        (Encoder (transformers (fun _ => some (.libErr "boom".toList)) (fun _ => none))
            MSGPACK (.raw 0) (([ZSTD] ++ GZIP :: []).reverse)).1.Encode v
          = .fails (.libErr "boom".toList)) := by
  refine ⟨rfl, ?_, ?_⟩
  · intro t ht
    fin_cases ht <;> rfl
  · exact Encoder_wrap_failure
      (transformers (fun _ => some (.libErr "boom".toList)) (fun _ => none))
      (fun t2 s => if t2 = GZIP then some (.libErr "boom".toList) else none)
      MSGPACK msgpackEntry (.raw 0) [ZSTD] GZIP [] (.libErr "boom".toList)
      rfl (by intro t ht; fin_cases ht <;> rfl)
      (by intro t ht s2; fin_cases ht; rfl) rfl

/-- C8: the NullCodec built with a recorded error returns exactly that
error from encode and decode regardless of the argument, and its close call
returns nil. -/
theorem nopSerializer_fixed_error (e : GoError) :
    (∀ (α : Type) (v : α), (EncodeCloser.nop e).Encode v = .fails e) ∧
    (∀ (α : Type) (v : α), (DecodeCloser.nop e).Decode v = .fails e) ∧
    (EncodeCloser.nop e).Close = .ok ∧ (DecodeCloser.nop e).Close = .ok :=
  ⟨fun _ _ => rfl, fun _ _ => rfl, rfl, rfl⟩

/-- C9: Decoder looks up the serializer named by the first tag token, not
the receiver's own id: for any non-empty tag any two receivers yield the
same decoder, and the msgpack receiver with tag "json" binds the json
decoder. -/
theorem Decoder_ignores_receiver (reg : Ident → Option TransEntry)
    (s1 s2 : Ident) (reader : ByteStream) (format : Ident) (_hne : format ≠ []) :
    Decoder reg s1 reader format = Decoder reg s2 reader format ∧
    ∀ (reg2 : Ident → Option TransEntry) (reader2 : ByteStream),
      Decoder reg2 MSGPACK reader2 JSON = .bound .jsonCodec reader2 := by
  refine ⟨?_, fun _ _ => rfl⟩
  have hu : unpack s1 format = unpack s2 format := by
    unfold unpack
    cases h : format.splitOn sep with
    | nil => exact absurd h (by simpa [List.splitOn] using List.splitOnP_ne_nil _ format)
    | cons d0 rest => rfl
  simp only [Decoder, hu]

/-- Witness for C9 at concrete receivers and tag. -/
theorem Decoder_ignores_receiver_witness :
    (JSON : Ident) ≠ [] ∧
    Decoder (transformers (fun _ => none) (fun _ => none)) MSGPACK (.raw 0) JSON
      = Decoder (transformers (fun _ => none) (fun _ => none)) JSON (.raw 0) JSON ∧
    Decoder (fun _ => none) MSGPACK (.raw 1) JSON = .bound .jsonCodec (.raw 1) :=
  ⟨by decide,
   (Decoder_ignores_receiver (transformers (fun _ => none) (fun _ => none))
      MSGPACK JSON (.raw 0) JSON (by decide)).1,
   (Decoder_ignores_receiver (transformers (fun _ => none) (fun _ => none))
      MSGPACK JSON (.raw 0) JSON (by decide)).2 (fun _ => none) (.raw 1)⟩

/-- C10: with an unregistered receiver serializer, Encoder returns the
NullCodec failing with ErrUnknownSerializer whatever the transformer list,
the result does not depend on the transformer registry at all (no
transformer lookup can influence it), and the returned tag still packs all
supplied ids verbatim. -/
theorem Encoder_unknown_serializer (reg reg2 : Ident → Option TransEntry)
    (s : Ident) (writer : ByteStream) (tt : List Ident)
    (h : serializers s = none) :
    Encoder reg s writer tt = (.nop .errUnknownSerializer, pack s tt) ∧
    (∀ (α : Type) (v : α),
      (Encoder reg s writer tt).1.Encode v = .fails .errUnknownSerializer) ∧
    Encoder reg s writer tt = Encoder reg2 s writer tt := by
  have hE : ∀ (r : Ident → Option TransEntry),
      Encoder r s writer tt = (.nop .errUnknownSerializer, pack s tt) := by
    intro r
    simp only [Encoder, h]
  exact ⟨hE reg, fun _ _ => by rw [hE reg]; rfl, (hE reg).trans (hE reg2).symm⟩

/-- Witness for C10 at a concrete unregistered id, with an unregistered
transformer also present in the list. -/
theorem Encoder_unknown_serializer_witness :
    serializers "bogus".toList = none ∧
    Encoder (transformers (fun _ => none) (fun _ => none)) "bogus".toList (.raw 0)
        [GZIP, "nope".toList]
      = (.nop .errUnknownSerializer, pack "bogus".toList [GZIP, "nope".toList]) ∧
    (Encoder (transformers (fun _ => none) (fun _ => none)) "bogus".toList (.raw 0)
        [GZIP, "nope".toList]).1.Encode (0 : Nat) = .fails .errUnknownSerializer ∧
    Encoder (transformers (fun _ => none) (fun _ => none)) "bogus".toList (.raw 0)
        [GZIP, "nope".toList]
      = Encoder (fun _ => none) "bogus".toList (.raw 0) [GZIP, "nope".toList] :=
  ⟨rfl,
   (Encoder_unknown_serializer (transformers (fun _ => none) (fun _ => none))
      (fun _ => none) "bogus".toList (.raw 0) [GZIP, "nope".toList] rfl).1,
   (Encoder_unknown_serializer (transformers (fun _ => none) (fun _ => none))
      (fun _ => none) "bogus".toList (.raw 0) [GZIP, "nope".toList] rfl).2.1 Nat 0,
   (Encoder_unknown_serializer (transformers (fun _ => none) (fun _ => none))
      (fun _ => none) "bogus".toList (.raw 0) [GZIP, "nope".toList] rfl).2.2⟩

end Pandora
